import Mathlib

/-!
Verification of the FarmMind sensor telemetry aggregator (Vibeathon repo).

Shallow embedding of the client-side sensor history/analytics pipeline:
the rolling history buffer (`Dashboard.fetchSensorData`), the analytics
computation (`Dashboard.calculateAnalytics`), CSV export
(`Dashboard.exportData`), the chart coordinate computation
(`SensorChart`), the plant-health analysis history
(`PlantHealth.handleAnalyze`), and the status classification thresholds.

JavaScript numbers are modelled as rationals (ℚ); `toFixed(1)` is
modelled as rounding to the nearest tenth, larger value on ties,
following the ECMAScript specification of `Number.prototype.toFixed`.
-/

namespace FarmMind

/-- One sensor reading as held in the dashboard's history buffer:
the four numeric measurements plus timestamp and the status label
delivered by the backend. -/
structure Reading where
  timestamp : Nat
  temperature : ℚ
  humidity : ℚ
  soil_moisture : ℚ
  sunlight_intensity : ℚ
  status : String
  deriving DecidableEq, Repr

/-- JavaScript `arr.slice(-n)`: the last `min n arr.length` elements. -/
def sliceLast (n : Nat) (l : List α) : List α :=
  l.drop (l.length - n)

theorem length_sliceLast (n : Nat) (l : List α) :
    (sliceLast n l).length = min n l.length := by
  simp only [sliceLast, List.length_drop]
  omega

theorem sliceLast_of_length_le {n : Nat} {l : List α} (h : l.length ≤ n) :
    sliceLast n l = l := by
  simp only [sliceLast]
  have : l.length - n = 0 := by omega
  simp [this]

theorem sliceLast_absorb (n : Nat) (hn : 1 ≤ n) (l : List α) (r : α) :
    sliceLast n (sliceLast n l ++ [r]) = sliceLast n (l ++ [r]) := by
  by_cases h : l.length + 1 ≤ n
  · rw [sliceLast_of_length_le (by omega : l.length ≤ n)]
  · simp only [sliceLast, List.length_append, List.length_drop,
      List.length_cons, List.length_nil]
    have h1 : l.length - (l.length - n) + 1 - n = 1 := by omega
    have h2 : l.length + 1 - n = l.length - n + 1 := by omega
    rw [h1, h2]
    have h3 : (1 : Nat) ≤ (l.drop (l.length - n)).length := by
      simp only [List.length_drop]; omega
    have h4 : l.length - n + 1 ≤ l.length := by omega
    rw [List.drop_append_of_le_length h3, List.drop_append_of_le_length h4,
      List.drop_drop]

theorem foldl_sliceLast_append (n : Nat) (hn : 1 ≤ n) (rs : List α) :
    rs.foldl (fun h r => sliceLast n (h ++ [r])) [] = sliceLast n rs := by
  induction rs using List.reverseRecOn with
  | nil => simp [sliceLast]
  | append_singleton rs r ih =>
      rw [List.foldl_append]
      simp only [List.foldl_cons, List.foldl_nil]
      rw [ih, sliceLast_absorb n hn rs r]

/-- `Dashboard.fetchSensorData` history update:
`[...prevHistory, reading].slice(-50)`. -/
def ingest (h : List Reading) (r : Reading) : List Reading :=
  sliceLast 50 (h ++ [r])

/-- The history buffer obtained from a sequence of ingests starting
from the empty buffer. -/
def ingestAll (rs : List Reading) : List Reading :=
  rs.foldl ingest []

theorem ingestAll_eq_sliceLast (rs : List Reading) :
    ingestAll rs = sliceLast 50 rs :=
  foldl_sliceLast_append 50 (by omega) rs

/-- A sample reading used in concrete scenarios: timestamp `i`, fixed
in-range measurements. -/
def mkReading (i : Nat) : Reading :=
  ⟨i, 20, 50, 50, 20000, "optimal"⟩

/-- C1: the history buffer has length at most 50 after every ingest
(for every ingest sequence, and for every single ingest from any state),
eviction is strictly FIFO (the buffer is always the suffix of the
ingested sequence holding the newest readings), and ingesting 51
sequential readings leaves exactly 50, without the 1st, with the 51st. -/
theorem ingest_bounded_fifo :
    (∀ rs : List Reading, (ingestAll rs).length ≤ 50) ∧
    (∀ (h : List Reading) (r : Reading), (ingest h r).length ≤ 50) ∧
    (∀ rs : List Reading, ingestAll rs = rs.drop (rs.length - 50)) ∧
    ((ingestAll ((List.range 51).map mkReading)).length = 50 ∧
     mkReading 0 ∉ ingestAll ((List.range 51).map mkReading) ∧
     mkReading 50 ∈ ingestAll ((List.range 51).map mkReading)) := by
  refine ⟨?_, ?_, ?_, ?_, ?_, ?_⟩
  · intro rs
    rw [ingestAll_eq_sliceLast, length_sliceLast]
    omega
  · intro h r
    rw [ingest, length_sliceLast]
    omega
  · intro rs
    rw [ingestAll_eq_sliceLast, sliceLast]
  · rw [ingestAll_eq_sliceLast, length_sliceLast]
    simp
  · rw [ingestAll_eq_sliceLast]
    decide
  · rw [ingestAll_eq_sliceLast]
    decide

/-- `Dashboard.calculateAnalytics` trend for one metric:
`values.length > 1 ? (values[values.length - 1] > values[0] ? '↑' : '↓') : '→'`. -/
def trendOf (values : List ℚ) : String :=
  if values.length > 1 then
    if values.getD (values.length - 1) 0 > values.getD 0 0 then "↑" else "↓"
  else "→"

/-- C2 counterexample: a buffer whose two endpoint values are equal
(length 2 > 1) gets trend '↓' (falling) from the code, not '→' (flat)
as the claim requires for equal endpoints. -/
theorem trend_equal_endpoints_cex :
    trendOf [(20 : ℚ), 20] = "↓" ∧ trendOf [(20 : ℚ), 20] ≠ "→" := by
  constructor
  · rfl
  · decide

/-- C2 (amended): for every buffer of metric values, the trend is
rising ('↑') iff the buffer has more than one value and the newest is
strictly greater than the oldest; falling ('↓') iff it has more than
one value and the newest is less than or equal to the oldest (equal
endpoints classify as falling, not flat); flat ('→') iff the length is
at most 1. -/
theorem trend_characterization (l : List ℚ) :
    (trendOf l = "↑" ↔ 1 < l.length ∧ l.getD 0 0 < l.getD (l.length - 1) 0) ∧
    (trendOf l = "↓" ↔ 1 < l.length ∧ l.getD (l.length - 1) 0 ≤ l.getD 0 0) ∧
    (trendOf l = "→" ↔ l.length ≤ 1) := by
  unfold trendOf
  split
  · rename_i h1
    split
    · rename_i h2
      refine ⟨⟨fun _ => ⟨h1, h2⟩, fun _ => rfl⟩, ⟨fun h => absurd h (by decide), ?_⟩,
        fun h => absurd h (by decide), fun h => absurd h (by omega)⟩
      rintro ⟨-, h3⟩
      exact absurd h2 (not_lt.mpr h3)
    · rename_i h2
      refine ⟨⟨fun h => absurd h (by decide), ?_⟩, ⟨fun _ => ⟨h1, not_lt.mp h2⟩, fun _ => rfl⟩,
        fun h => absurd h (by decide), fun h => absurd h (by omega)⟩
      rintro ⟨-, h3⟩
      exact absurd h3 h2
  · rename_i h1
    refine ⟨⟨fun h => absurd h (by decide), ?_⟩, ⟨fun h => absurd h (by decide), ?_⟩,
      fun _ => by omega, fun _ => rfl⟩
    · rintro ⟨h2, -⟩
      exact absurd h2 h1
    · rintro ⟨h2, -⟩
      exact absurd h2 h1

/-- Modelled from the spec: the backend status classification
(`backend/models/sensor_sim.py`) is not among the sources; only its UI
consumers are. Spec §4 `classify(reading)`: temperature critical if
`< 5` or `> 40`, warning if `< 10` or `> 35` (else optimal for that
metric); soil moisture warning if `< 30` or `> 80`; humidity and
sunlight do not independently affect status; metrics combine by
worst-case precedence critical > warning > optimal. -/
def classify (r : Reading) : String :=
  if r.temperature < 5 ∨ 40 < r.temperature then "critical"
  else if r.temperature < 10 ∨ 35 < r.temperature then "warning"
  else if r.soil_moisture < 30 ∨ 80 < r.soil_moisture then "warning"
  else "optimal"

/-- C3: classification thresholds — a reading is critical iff its
temperature is `< 5` or `> 40`; warning iff it is not critical and
either its temperature is `< 10` or `> 35` or its soil moisture is
`< 30` or `> 80`; otherwise optimal. In particular a reading with
soil moisture 25 (and in-range temperature) classifies as warning. -/
theorem classify_thresholds :
    (∀ r : Reading, classify r = "critical" ↔
      (r.temperature < 5 ∨ 40 < r.temperature)) ∧
    (∀ r : Reading, classify r = "warning" ↔
      (¬(r.temperature < 5 ∨ 40 < r.temperature) ∧
       ((r.temperature < 10 ∨ 35 < r.temperature) ∨
        (r.soil_moisture < 30 ∨ 80 < r.soil_moisture)))) ∧
    (∀ r : Reading, classify r = "optimal" ↔
      (¬(r.temperature < 5 ∨ 40 < r.temperature) ∧
       ¬(r.temperature < 10 ∨ 35 < r.temperature) ∧
       ¬(r.soil_moisture < 30 ∨ 80 < r.soil_moisture))) ∧
    classify ⟨0, 20, 50, 25, 20000, "warning"⟩ = "warning" := by
  refine ⟨?_, ?_, ?_, by decide⟩ <;> intro r <;> unfold classify <;>
    split <;> try split <;> try split
  all_goals simp_all

/-- JavaScript `x.toFixed(1)`, read back as a number: round to the
nearest multiple of 1/10, picking the larger value on ties
(ECMAScript: "if there are two such n, pick the larger n"). -/
def toFixed1 (q : ℚ) : ℚ :=
  (round (q * 10) : ℚ) / 10

/-- JavaScript `Math.min(...l)` over a non-empty spread list
(0 for the empty list, which the dashboard never reaches). -/
def listMin : List ℚ → ℚ
  | [] => 0
  | x :: xs => xs.foldl min x

/-- JavaScript `Math.max(...l)` over a non-empty spread list. -/
def listMax : List ℚ → ℚ
  | [] => 0
  | x :: xs => xs.foldl max x

/-- `Dashboard.calculateAnalytics` per-metric average:
`(values.reduce((a, b) => a + b, 0) / values.length).toFixed(1)`. -/
def avgOf (l : List ℚ) : ℚ :=
  toFixed1 (l.sum / (l.length : ℚ))

/-- `Math.min(...values).toFixed(1)` as reported in the snapshot. -/
def minOf (l : List ℚ) : ℚ :=
  toFixed1 (listMin l)

/-- `Math.max(...values).toFixed(1)` as reported in the snapshot. -/
def maxOf (l : List ℚ) : ℚ :=
  toFixed1 (listMax l)

/-- JavaScript `x.toFixed(0)`, used for the sunlight metric: round to
the nearest integer, larger value on ties. -/
def toFixed0 (q : ℚ) : ℚ :=
  (round q : ℚ)

/-- Sunlight average: `(values.reduce(..) / values.length).toFixed(0)`. -/
def avgOf0 (l : List ℚ) : ℚ :=
  toFixed0 (l.sum / (l.length : ℚ))

/-- Sunlight snapshot minimum: `Math.min(...values).toFixed(0)`. -/
def minOf0 (l : List ℚ) : ℚ :=
  toFixed0 (listMin l)

/-- Sunlight snapshot maximum: `Math.max(...values).toFixed(0)`. -/
def maxOf0 (l : List ℚ) : ℚ :=
  toFixed0 (listMax l)

theorem toFixed0_mono {a b : ℚ} (h : a ≤ b) : toFixed0 a ≤ toFixed0 b := by
  unfold toFixed0
  have h1 : round a ≤ round b := by
    rw [round_eq, round_eq]
    exact Int.floor_mono (by linarith)
  exact_mod_cast h1

theorem toFixed1_mono {a b : ℚ} (h : a ≤ b) : toFixed1 a ≤ toFixed1 b := by
  unfold toFixed1
  have h1 : round (a * 10) ≤ round (b * 10) := by
    rw [round_eq, round_eq]
    exact Int.floor_mono (by linarith)
  have h2 : ((round (a * 10) : ℤ) : ℚ) ≤ ((round (b * 10) : ℤ) : ℚ) := by
    exact_mod_cast h1
  linarith

theorem foldl_min_le (xs : List ℚ) (a : ℚ) :
    xs.foldl min a ≤ a ∧ ∀ x ∈ xs, xs.foldl min a ≤ x := by
  induction xs generalizing a with
  | nil => simp
  | cons y ys ih =>
      simp only [List.foldl_cons]
      obtain ⟨h1, h2⟩ := ih (min a y)
      refine ⟨h1.trans (min_le_left a y), ?_⟩
      intro x hx
      rcases List.mem_cons.mp hx with rfl | hx
      · exact h1.trans (min_le_right a x)
      · exact h2 x hx

theorem le_foldl_max (xs : List ℚ) (a : ℚ) :
    a ≤ xs.foldl max a ∧ ∀ x ∈ xs, x ≤ xs.foldl max a := by
  induction xs generalizing a with
  | nil => simp
  | cons y ys ih =>
      simp only [List.foldl_cons]
      obtain ⟨h1, h2⟩ := ih (max a y)
      refine ⟨(le_max_left a y).trans h1, ?_⟩
      intro x hx
      rcases List.mem_cons.mp hx with rfl | hx
      · exact (le_max_right a x).trans h1
      · exact h2 x hx

theorem listMin_le_mem {l : List ℚ} {x : ℚ} (hx : x ∈ l) : listMin l ≤ x := by
  match l with
  | [] => cases hx
  | y :: ys =>
      rcases List.mem_cons.mp hx with rfl | hx
      · exact (foldl_min_le ys x).1
      · exact (foldl_min_le ys y).2 x hx

theorem mem_le_listMax {l : List ℚ} {x : ℚ} (hx : x ∈ l) : x ≤ listMax l := by
  match l with
  | [] => cases hx
  | y :: ys =>
      rcases List.mem_cons.mp hx with rfl | hx
      · exact (le_foldl_max ys x).1
      · exact (le_foldl_max ys y).2 x hx

theorem mean_within_range {l : List ℚ} (h : l ≠ []) :
    listMin l ≤ l.sum / (l.length : ℚ) ∧ l.sum / (l.length : ℚ) ≤ listMax l := by
  have hpos : (0 : ℚ) < (l.length : ℚ) := by
    have : 0 < l.length := List.length_pos.mpr h
    exact_mod_cast this
  have hub : l.sum ≤ (l.length : ℚ) * listMax l := by
    have := List.sum_le_card_nsmul l (listMax l) (fun x hx => mem_le_listMax hx)
    simpa [nsmul_eq_mul] using this
  have hlb : (l.length : ℚ) * listMin l ≤ l.sum := by
    have := List.card_nsmul_le_sum l (listMin l) (fun x hx => listMin_le_mem hx)
    simpa [nsmul_eq_mul] using this
  constructor
  · rw [le_div_iff₀ hpos]
    linarith
  · rw [div_le_iff₀ hpos]
    linarith

/-- The sample buffer of the spec scenario: three readings with
temperatures 20, 22, 25. -/
def sampleTemps : List ℚ := [20, 22, 25]

/-- C4 counterexample: a buffer holding the single value 1.06 has
snapshot average `(1.06).toFixed(1) = 1.1`, which is strictly greater
than the greatest buffered value 1.06 — the rounded average does not
lie within the raw `[min, max]` of the buffered values. -/
theorem avg_in_raw_range_cex :
    avgOf [(53/50 : ℚ)] = 11/10 ∧ listMax [(53/50 : ℚ)] = 53/50 ∧
    ¬(avgOf [(53/50 : ℚ)] ≤ listMax [(53/50 : ℚ)]) := by
  refine ⟨?_, by rfl, ?_⟩
  · unfold avgOf toFixed1
    norm_num [round_eq]
  · unfold avgOf toFixed1
    norm_num [round_eq, listMax]

/-- C4 (amended): for every non-empty buffer, the unrounded mean lies
within the raw `[min, max]` of the buffered values, and the snapshot
average (`toFixed(1)`-rounded) lies within the snapshot's own
`[min, max]` (the rounded least and greatest buffered values) —
rounding can push the reported average above the raw maximum (or below
the raw minimum) by up to half a tenth. The scenario holds: averaging
temperatures [20, 22, 25] yields 22.3 after rounding to 1 decimal. -/
theorem avg_within_snapshot_range (l : List ℚ) (h : l ≠ []) :
    (listMin l ≤ l.sum / (l.length : ℚ) ∧ l.sum / (l.length : ℚ) ≤ listMax l) ∧
    (minOf l ≤ avgOf l ∧ avgOf l ≤ maxOf l) ∧
    (minOf0 l ≤ avgOf0 l ∧ avgOf0 l ≤ maxOf0 l) ∧
    avgOf sampleTemps = 223/10 ∧ trendOf sampleTemps = "↑" := by
  obtain ⟨h1, h2⟩ := mean_within_range h
  refine ⟨⟨h1, h2⟩, ⟨toFixed1_mono h1, toFixed1_mono h2⟩,
    ⟨toFixed0_mono h1, toFixed0_mono h2⟩, ?_, by rfl⟩
  unfold sampleTemps avgOf toFixed1
  norm_num [round_eq]

/-- Closed witness for `avg_within_snapshot_range` at the scenario
buffer [20, 22, 25]. -/
theorem avg_within_snapshot_range_witness :
    (sampleTemps ≠ []) ∧
    ((listMin sampleTemps ≤ sampleTemps.sum / (sampleTemps.length : ℚ) ∧
      sampleTemps.sum / (sampleTemps.length : ℚ) ≤ listMax sampleTemps) ∧
     (minOf sampleTemps ≤ avgOf sampleTemps ∧ avgOf sampleTemps ≤ maxOf sampleTemps) ∧
     (minOf0 sampleTemps ≤ avgOf0 sampleTemps ∧ avgOf0 sampleTemps ≤ maxOf0 sampleTemps) ∧
     avgOf sampleTemps = 223/10 ∧ trendOf sampleTemps = "↑") :=
  ⟨by decide, avg_within_snapshot_range sampleTemps (by decide)⟩

/-- `Dashboard.exportData` header row. -/
def csvHeaders : List String :=
  ["Timestamp", "Temperature (°C)", "Humidity (%)", "Soil Moisture (%)",
   "Sunlight (lux)", "Status"]

/-- `Dashboard.exportData` data row for one reading. The rendering of
numbers (JavaScript implicit number-to-string) and of the timestamp
(`toLocaleString`) are parameters of the embedding. -/
def csvRow (renderNum : ℚ → String) (renderTs : Nat → String) (r : Reading) :
    List String :=
  [renderTs r.timestamp, renderNum r.temperature, renderNum r.humidity,
   renderNum r.soil_moisture, renderNum r.sunlight_intensity, r.status]

/-- `[headers, ...rows]`: the header row followed by one row per
buffered reading, in buffer (chronological) order. -/
def csvRows (renderNum : ℚ → String) (renderTs : Nat → String)
    (h : List Reading) : List (List String) :=
  csvHeaders :: h.map (csvRow renderNum renderTs)

/-- `Dashboard.exportData`: `if (history.length === 0) return;` then
build `[headers, ...rows]`. -/
def exportData (renderNum : ℚ → String) (renderTs : Nat → String)
    (h : List Reading) : Option (List (List String)) :=
  if h.length = 0 then none else some (csvRows renderNum renderTs h)

/-- The exported byte sequence:
`[headers, ...rows].map(row => row.join(',')).join('\n')`,
modelled at the character-list level. -/
def csvText (renderNum : ℚ → String) (renderTs : Nat → String)
    (h : List Reading) : List Char :=
  List.intercalate ['\n']
    ((csvRows renderNum renderTs h).map
      (fun row => List.intercalate [','] (row.map String.toList)))

/-- Parsing the CSV back: split into lines on newline, then split each
line into fields on commas. -/
def parseCsv (s : List Char) : List (List (List Char)) :=
  (s.splitOn '\n').map (fun line => line.splitOn ',')

/-- A field is delimiter-free: it contains neither the comma nor the
newline character. JavaScript number printing always satisfies this. -/
def delimFree (s : String) : Prop :=
  ',' ∉ s.toList ∧ '\n' ∉ s.toList

instance (s : String) : Decidable (delimFree s) := by
  unfold delimFree
  infer_instance

/-- The four numeric measurements of one reading, in CSV column order. -/
def numericFields (r : Reading) : List ℚ :=
  [r.temperature, r.humidity, r.soil_moisture, r.sunlight_intensity]

theorem not_mem_intercalate {c d : α} [DecidableEq α] (hc : c ≠ d) :
    ∀ xs : List (List α), (∀ x ∈ xs, c ∉ x) → c ∉ List.intercalate [d] xs
  | [], _ => by simp [List.intercalate]
  | [a], h => by
      simpa [List.intercalate] using h a (by simp)
  | a :: b :: tl, h => by
      have ih := not_mem_intercalate hc (b :: tl)
        (fun x hx => h x (List.mem_cons_of_mem a hx))
      have ha := h a (by simp)
      simp only [List.intercalate, List.intersperse_cons₂,
        List.flatten_cons, List.mem_append, List.mem_cons] at ih ⊢
      push_neg
      refine ⟨ha, ?_⟩
      simpa [List.intercalate, hc] using ih

theorem csvRows_delimFree (renderNum : ℚ → String) (renderTs : Nat → String)
    (h : List Reading)
    (hfree : ∀ r ∈ h, ∀ s ∈ csvRow renderNum renderTs r, delimFree s) :
    ∀ row ∈ csvRows renderNum renderTs h, row ≠ [] ∧ ∀ s ∈ row, delimFree s := by
  intro row hrow
  rcases List.mem_cons.mp hrow with rfl | hrow
  · exact ⟨by decide, by decide⟩
  · obtain ⟨r, hr, rfl⟩ := List.mem_map.mp hrow
    exact ⟨by simp [csvRow], hfree r hr⟩

theorem parseCsv_csvText (renderNum : ℚ → String) (renderTs : Nat → String)
    (h : List Reading)
    (hfree : ∀ r ∈ h, ∀ s ∈ csvRow renderNum renderTs r, delimFree s) :
    parseCsv (csvText renderNum renderTs h)
      = (csvRows renderNum renderTs h).map (fun row => row.map String.toList) := by
  have hrows := csvRows_delimFree renderNum renderTs h hfree
  unfold parseCsv csvText
  have hsplit : (List.intercalate ['\n']
      ((csvRows renderNum renderTs h).map
        (fun row => List.intercalate [','] (row.map String.toList)))).splitOn '\n'
      = (csvRows renderNum renderTs h).map
        (fun row => List.intercalate [','] (row.map String.toList)) := by
    apply List.splitOn_intercalate
    · intro line hline
      obtain ⟨row, hrow, rfl⟩ := List.mem_map.mp hline
      apply not_mem_intercalate (by decide)
      intro f hf
      obtain ⟨s, hs, rfl⟩ := List.mem_map.mp hf
      exact ((hrows row hrow).2 s hs).2
    · simp [csvRows]
  rw [hsplit, List.map_map]
  apply List.map_congr_left
  intro row hrow
  apply List.splitOn_intercalate
  · intro f hf
    obtain ⟨s, hs, rfl⟩ := List.mem_map.mp hf
    exact ((hrows row hrow).2 s hs).1
  · simp [(hrows row hrow).1]

/-- C5: for every non-empty buffer the export produces the fixed header
row followed by exactly one row per buffered reading in chronological
(oldest-first) order, so the row count is the buffer length plus one;
for the empty buffer the export is a no-op producing nothing. -/
theorem export_row_count (renderNum : ℚ → String) (renderTs : Nat → String) :
    (∀ h : List Reading, h ≠ [] →
      exportData renderNum renderTs h = some (csvRows renderNum renderTs h) ∧
      (csvRows renderNum renderTs h).length = h.length + 1 ∧
      (csvRows renderNum renderTs h).head? = some csvHeaders ∧
      (csvRows renderNum renderTs h).drop 1 = h.map (csvRow renderNum renderTs)) ∧
    exportData renderNum renderTs [] = none := by
  refine ⟨?_, rfl⟩
  intro h hne
  refine ⟨?_, by simp [csvRows], rfl, rfl⟩
  unfold exportData
  rw [if_neg (by simpa [List.length_eq_zero] using hne)]

/-- A one-reading buffer with distinguishable numeric values, used to
instantiate the export theorems. -/
def wBuffer : List Reading :=
  [⟨0, 1, 2, 3, 4, "optimal"⟩]

/-- A concrete injective numeric renderer for the witness buffer. -/
def wRender : ℚ → String := fun q =>
  if q = 1 then "w" else if q = 2 then "x" else if q = 3 then "y" else "z"

/-- A concrete comma-free timestamp renderer for the witness buffer
(an ISO-style rendering; unlike `toLocaleString` in comma-using
locales, it satisfies `delimFree`). -/
def wRenderTs : Nat → String := fun _ => "2026-10-12 01:27:45"

/-- The parser inverting `wRender` on the witness values. -/
def wParse : List Char → Option ℚ := fun cs =>
  if cs = ['w'] then some 1 else if cs = ['x'] then some 2
  else if cs = ['y'] then some 3 else if cs = ['z'] then some 4 else none

/-- Closed witness for `export_row_count` at the one-reading buffer. -/
theorem export_row_count_witness :
    (wBuffer ≠ []) ∧
    (exportData wRender wRenderTs wBuffer = some (csvRows wRender wRenderTs wBuffer) ∧
     (csvRows wRender wRenderTs wBuffer).length = wBuffer.length + 1 ∧
     (csvRows wRender wRenderTs wBuffer).head? = some csvHeaders ∧
     (csvRows wRender wRenderTs wBuffer).drop 1 = wBuffer.map (csvRow wRender wRenderTs)) :=
  ⟨by decide, (export_row_count wRender wRenderTs).1 wBuffer (by decide)⟩

/-- The buffer of the C6 counterexample: one reading with the in-range
values 20, 50, 50, 20000. -/
def cexBuffer : List Reading :=
  [⟨0, 20, 50, 50, 20000, "optimal"⟩]

/-- Decimal rendering of the counterexample's numeric values, as
JavaScript number-to-string produces for them. -/
def cexRenderNum : ℚ → String := fun q =>
  if q = 20 then "20" else if q = 50 then "50"
  else if q = 20000 then "20000" else "0"

/-- The timestamp rendering the program actually uses,
`new Date(h.timestamp).toLocaleString()`, in the default en-US locale:
it contains a comma. -/
def cexRenderTs : Nat → String := fun _ => "10/12/2026, 1:27:45 AM"

/-- The exact inverse of `cexRenderNum` on the counterexample's values
(so the round-trip failure below is due to the CSV, not the parser). -/
def cexParseNum : List Char → Option ℚ := fun cs =>
  if cs = "20".toList then some 20 else if cs = "50".toList then some 50
  else if cs = "20000".toList then some 20000 else none

/-- C6 counterexample: with the program's actual timestamp rendering
(`toLocaleString`, en-US: `"10/12/2026, 1:27:45 AM"`), the unquoted
comma inside the timestamp splits into an extra field — the data row
parses into 7 fields against the 6-column header — so the numeric
columns shift and parsing the exported CSV does not recover the
original numeric values, even though the numeric renderer is exactly
inverted by the parser. -/
theorem csv_roundtrip_cex :
    (cexParseNum (cexRenderNum 20).toList = some 20 ∧
     cexParseNum (cexRenderNum 50).toList = some 50 ∧
     cexParseNum (cexRenderNum 20000).toList = some 20000) ∧
    ((parseCsv (csvText cexRenderNum cexRenderTs cexBuffer)).drop 1).map
        List.length = [7] ∧
    ((parseCsv (csvText cexRenderNum cexRenderTs cexBuffer)).drop 1).map
        (fun row => ((row.drop 1).take 4).map cexParseNum)
      ≠ cexBuffer.map (fun r => (numericFields r).map some) := by
  refine ⟨⟨by decide, by decide, by decide⟩, by decide, by decide⟩

/-- C6 (amended): parsing the CSV produced by export recovers the
original numeric field values of every buffered reading exactly,
provided every rendered field — the timestamp included — is
delimiter-free and the numeric rendering is invertible on the buffered
values. JavaScript number printing guarantees this for the four
numeric fields (its output never contains a comma or newline and
`parseFloat` inverts it exactly), but the timestamp field is rendered
by `toLocaleString`, which in comma-using locales such as en-US
contains a comma; there the columns shift and recovery fails
(see the counterexample above). -/
theorem csv_roundtrip (renderNum : ℚ → String) (renderTs : Nat → String)
    (parseNum : List Char → Option ℚ) (h : List Reading)
    (hfree : ∀ r ∈ h, ∀ s ∈ csvRow renderNum renderTs r, delimFree s)
    (hinv : ∀ r ∈ h,
      parseNum (renderNum r.temperature).toList = some r.temperature ∧
      parseNum (renderNum r.humidity).toList = some r.humidity ∧
      parseNum (renderNum r.soil_moisture).toList = some r.soil_moisture ∧
      parseNum (renderNum r.sunlight_intensity).toList = some r.sunlight_intensity) :
    parseCsv (csvText renderNum renderTs h)
      = (csvRows renderNum renderTs h).map (fun row => row.map String.toList) ∧
    ((parseCsv (csvText renderNum renderTs h)).drop 1).map
        (fun row => ((row.drop 1).take 4).map parseNum)
      = h.map (fun r => (numericFields r).map some) := by
  have hp := parseCsv_csvText renderNum renderTs h hfree
  refine ⟨hp, ?_⟩
  rw [hp]
  unfold csvRows
  simp only [List.map_cons, List.drop_succ_cons, List.drop_nil, List.map_map,
    List.drop_zero]
  apply List.map_congr_left
  intro r hr
  obtain ⟨h1, h2, h3, h4⟩ := hinv r hr
  show [parseNum (renderNum r.temperature).toList,
        parseNum (renderNum r.humidity).toList,
        parseNum (renderNum r.soil_moisture).toList,
        parseNum (renderNum r.sunlight_intensity).toList]
      = [some r.temperature, some r.humidity, some r.soil_moisture,
         some r.sunlight_intensity]
  rw [h1, h2, h3, h4]

/-- Closed witness for `csv_roundtrip` at the one-reading buffer with
the concrete renderer `wRender` and its inverse `wParse`. -/
theorem csv_roundtrip_witness :
    (∀ r ∈ wBuffer, ∀ s ∈ csvRow wRender wRenderTs r, delimFree s) ∧
    (∀ r ∈ wBuffer,
      wParse (wRender r.temperature).toList = some r.temperature ∧
      wParse (wRender r.humidity).toList = some r.humidity ∧
      wParse (wRender r.soil_moisture).toList = some r.soil_moisture ∧
      wParse (wRender r.sunlight_intensity).toList = some r.sunlight_intensity) ∧
    (parseCsv (csvText wRender wRenderTs wBuffer)
      = (csvRows wRender wRenderTs wBuffer).map (fun row => row.map String.toList) ∧
    ((parseCsv (csvText wRender wRenderTs wBuffer)).drop 1).map
        (fun row => ((row.drop 1).take 4).map wParse)
      = wBuffer.map (fun r => (numericFields r).map some)) :=
  ⟨by decide, by decide,
   csv_roundtrip wRender wRenderTs wParse wBuffer (by decide) (by decide)⟩

/-- Per-metric analytics entry: `{avg, min, max, trend}`. -/
structure MetricStats where
  avg : ℚ
  min : ℚ
  max : ℚ
  trend : String
  deriving DecidableEq, Repr

/-- The analytics snapshot computed by `Dashboard.calculateAnalytics`:
one `MetricStats` per metric; temperature, humidity and soil moisture
use `toFixed(1)`, sunlight uses `toFixed(0)`. -/
structure Analytics where
  temperature : MetricStats
  humidity : MetricStats
  soil_moisture : MetricStats
  sunlight_intensity : MetricStats
  deriving DecidableEq, Repr

/-- The analytics object built from a non-empty buffer. -/
def mkAnalytics (data : List Reading) : Analytics where
  temperature :=
    ⟨avgOf (data.map (·.temperature)), minOf (data.map (·.temperature)),
     maxOf (data.map (·.temperature)), trendOf (data.map (·.temperature))⟩
  humidity :=
    ⟨avgOf (data.map (·.humidity)), minOf (data.map (·.humidity)),
     maxOf (data.map (·.humidity)), trendOf (data.map (·.humidity))⟩
  soil_moisture :=
    ⟨avgOf (data.map (·.soil_moisture)), minOf (data.map (·.soil_moisture)),
     maxOf (data.map (·.soil_moisture)), trendOf (data.map (·.soil_moisture))⟩
  sunlight_intensity :=
    ⟨avgOf0 (data.map (·.sunlight_intensity)), minOf0 (data.map (·.sunlight_intensity)),
     maxOf0 (data.map (·.sunlight_intensity)), trendOf (data.map (·.sunlight_intensity))⟩

/-- `Dashboard.calculateAnalytics`: `if (!data || data.length === 0)
return;` leaves the previous analytics state untouched; otherwise the
snapshot is recomputed in full. -/
def calculateAnalytics (data : List Reading) (prev : Option Analytics) :
    Option Analytics :=
  if data.length = 0 then prev else some (mkAnalytics data)

/-- The history-load `useEffect` of `Dashboard`: read the stored blob,
`JSON.parse` it inside `try`, and on parse failure (`catch`) keep the
initial empty buffer and absent analytics. `parse` embeds
`JSON.parse` + the shape of the stored array. -/
def loadHistory (parse : String → Option (List Reading))
    (stored : Option String) : List Reading × Option Analytics :=
  match stored with
  | none => ([], none)
  | some s =>
      match parse s with
      | none => ([], none)
      | some h => (h, calculateAnalytics h none)

/-- C7: reloading from a malformed (unparseable) persisted blob
discards it: the aggregator starts with an empty buffer and an absent
analytics snapshot, and the load function is total (no crash). -/
theorem corrupted_reload_safe (parse : String → Option (List Reading))
    (blob : String) (hp : parse blob = none) :
    loadHistory parse (some blob) = ([], none) := by
  simp only [loadHistory, hp]

/-- Closed witness for `corrupted_reload_safe` with a parser that
rejects every blob. -/
theorem corrupted_reload_safe_witness :
    ((fun _ : String => (none : Option (List Reading))) "corrupt" = none) ∧
    loadHistory (fun _ => none) (some "corrupt") = ([], none) :=
  ⟨rfl, corrupted_reload_safe (fun _ => none) "corrupt" rfl⟩

/-- The dashboard component state touched by `fetchSensorData`. -/
structure DashState where
  sensorData : Option Reading
  loading : Bool
  error : Option String
  history : List Reading
  analytics : Option Analytics
  deriving Repr

/-- One tick of `Dashboard.fetchSensorData`: on success set the sensor
data, clear loading and error, ingest into the history and recompute
analytics; on failure (`catch`) set the error message and clear
loading, touching nothing else. -/
def fetchTick (result : Except String Reading) (s : DashState) : DashState :=
  match result with
  | .ok data =>
      let newHistory := ingest s.history data
      { sensorData := some data, loading := false, error := none,
        history := newHistory,
        analytics := calculateAnalytics newHistory s.analytics }
  | .error msg => { s with error := some msg, loading := false }

/-- C8: a failed fetch changes only the error indicator (and the
loading flag): the displayed sensor data, the history buffer and the
analytics snapshot are unchanged, and the next tick proceeds normally
(an immediately following successful fetch ingests into the same
history — polling continues, with no retry inside the failed tick). -/
theorem fetch_failure_frame (s : DashState) (msg : String) :
    (fetchTick (.error msg) s).sensorData = s.sensorData ∧
    (fetchTick (.error msg) s).history = s.history ∧
    (fetchTick (.error msg) s).analytics = s.analytics ∧
    (fetchTick (.error msg) s).error = some msg ∧
    (fetchTick (.error msg) s).loading = false ∧
    (∀ r : Reading,
      (fetchTick (.ok r) (fetchTick (.error msg) s)).history = ingest s.history r) :=
  ⟨rfl, rfl, rfl, rfl, rfl, fun _ => rfl⟩

/-- JavaScript `x || 1` for a number `x`: 1 when `x` is 0 (falsy),
otherwise `x` itself. -/
def jsOr1 (q : ℚ) : ℚ :=
  if q = 0 then 1 else q

/-- The x-coordinate divisor of `SensorChart`: `data.length - 1 || 1`. -/
def chartXDiv (len : Nat) : ℚ :=
  jsOr1 ((len - 1 : Nat) : ℚ)

/-- `SensorChart` coordinate computation: `null` for empty data,
otherwise one SVG point per datum with
`x = (index / (data.length - 1 || 1)) * 100` and
`y = 100 - ((value - minValue) / range) * 80` where
`range = maxValue - minValue || 1`. -/
def sensorChart (data : List ℚ) (optMin optMax : ℚ) : Option (List (ℚ × ℚ)) :=
  if data.length = 0 then none
  else
    let maxValue := listMax (data ++ [optMax])
    let minValue := listMin (data ++ [optMin])
    let range := jsOr1 (maxValue - minValue)
    some (data.enum.map (fun p =>
      (((p.1 : ℚ) / chartXDiv data.length) * 100,
       100 - ((p.2 - minValue) / range) * 80)))

/-- C9: the chart computation is total — empty data renders nothing
(`null`), the index divisor `data.length - 1 || 1` and the value-range
divisor `max - min || 1` are never zero (also for a single point or
all-equal values), and every non-empty data list yields points. -/
theorem chart_no_div_by_zero :
    (∀ optMin optMax, sensorChart [] optMin optMax = none) ∧
    (∀ q : ℚ, jsOr1 q ≠ 0) ∧
    (∀ len : Nat, chartXDiv len ≠ 0) ∧
    (∀ (data : List ℚ) (optMin optMax : ℚ), data ≠ [] →
      jsOr1 (listMax (data ++ [optMax]) - listMin (data ++ [optMin])) ≠ 0 ∧
      (sensorChart data optMin optMax).isSome = true) := by
  have hj : ∀ q : ℚ, jsOr1 q ≠ 0 := by
    intro q
    unfold jsOr1
    split
    · exact one_ne_zero
    · assumption
  refine ⟨fun _ _ => rfl, hj, fun len => hj _, ?_⟩
  intro data optMin optMax hne
  refine ⟨hj _, ?_⟩
  unfold sensorChart
  rw [if_neg (by simpa [List.length_eq_zero] using hne)]
  rfl

/-- Closed witness for `chart_no_div_by_zero` at a single-point data
list (where both guards fire: length - 1 = 0 and max = min on data). -/
theorem chart_no_div_by_zero_witness :
    ([(5 : ℚ)] ≠ ([] : List ℚ)) ∧
    (jsOr1 (listMax ([(5 : ℚ)] ++ [10]) - listMin ([(5 : ℚ)] ++ [0])) ≠ 0 ∧
     (sensorChart [(5 : ℚ)] 0 10).isSome = true) :=
  ⟨by decide, chart_no_div_by_zero.2.2.2 [(5 : ℚ)] 0 10 (by decide)⟩

/-- One record of the plant-health analysis history
(`{id, image, analysis, timestamp}` in `PlantHealth.handleAnalyze`). -/
structure HealthRecord where
  id : Nat
  image : String
  result : String
  timestamp : String
  deriving DecidableEq, Repr

/-- `PlantHealth.handleAnalyze` history update:
`[...history, newRecord].slice(-20)`. -/
def addHealthRecord (h : List HealthRecord) (r : HealthRecord) :
    List HealthRecord :=
  sliceLast 20 (h ++ [r])

/-- The `localStorage.setItem('plantHealthHistory', ...)` call: the
fixed storage key paired with the entire updated list. -/
def persistHealth (h : List HealthRecord) (r : HealthRecord) :
    String × List HealthRecord :=
  ("plantHealthHistory", addHealthRecord h r)

/-- C10: after every analysis the stored history has length at most 20;
over any sequence of analyses the retained list is exactly the suffix
of the most recent 20 records (oldest dropped first); the new record is
always retained; and each analysis persists the entire updated list
under the fixed key 'plantHealthHistory'. -/
theorem health_history_bounded :
    (∀ (h : List HealthRecord) (r : HealthRecord),
      (addHealthRecord h r).length ≤ 20) ∧
    (∀ rs : List HealthRecord, (rs.foldl addHealthRecord []).length ≤ 20) ∧
    (∀ rs : List HealthRecord,
      rs.foldl addHealthRecord [] = rs.drop (rs.length - 20)) ∧
    (∀ (h : List HealthRecord) (r : HealthRecord), r ∈ addHealthRecord h r) ∧
    (∀ (h : List HealthRecord) (r : HealthRecord),
      persistHealth h r = ("plantHealthHistory", addHealthRecord h r)) := by
  have hfold : ∀ rs : List HealthRecord,
      rs.foldl addHealthRecord [] = sliceLast 20 rs :=
    foldl_sliceLast_append 20 (by omega)
  refine ⟨?_, ?_, ?_, ?_, fun _ _ => rfl⟩
  · intro h r
    rw [addHealthRecord, length_sliceLast]
    omega
  · intro rs
    rw [hfold, length_sliceLast]
    omega
  · intro rs
    rw [hfold, sliceLast]
  · intro h r
    unfold addHealthRecord sliceLast
    have hk : (h ++ [r]).length - 20 ≤ h.length := by
      simp only [List.length_append, List.length_cons, List.length_nil]
      omega
    rw [List.drop_append_of_le_length hk]
    exact List.mem_append_right _ (List.mem_singleton.mpr rfl)

end FarmMind
